import Mathlib

/-!
Verification of the `smd` spacecraft astrodynamics library.

This file gives a shallow embedding, over the real numbers, of the parts of
the library that the verified properties talk about: the small math kernel
(3-vectors, elementary rotation, Go's `math.Mod` and `math.Atan2`), the
celestial-body catalog (`celestial.go`), the optimal thrust-direction control
laws and their Ruggiero combination (`prop.go`), and the propagator's
`Func` / `SetState` / `Stop` methods (`astro.go`).

Floating-point arithmetic is modelled by exact real arithmetic.  The single
place where floating-point special values matter (the NaN check in the
derivative function) is modelled by an explicit classification type.
-/

noncomputable section

open Real

/-! ## Math kernel

The library's vector/angle helpers live in a math-kernel file whose exact text
is not part of the sources examined here; they are modelled from the spec
(§4.1 Math kernel), which fixes them as the standard operations. -/

/-- A 3-vector, standing for the Go `[]float64` slices of length 3. -/
structure Vec3 where
  x : ℝ
  y : ℝ
  z : ℝ
  deriving DecidableEq

/-- Modelled from the spec: the math kernel's `cross` (standard cross product). -/
def cross (a b : Vec3) : Vec3 :=
  ⟨a.y * b.z - a.z * b.y, a.z * b.x - a.x * b.z, a.x * b.y - a.y * b.x⟩

/-- Modelled from the spec: the math kernel's `norm` (Euclidean norm). -/
def norm3 (v : Vec3) : ℝ :=
  Real.sqrt (v.x ^ 2 + v.y ^ 2 + v.z ^ 2)

/-- Modelled from the spec: the math kernel's `unit` (normalized vector). -/
def unit3 (v : Vec3) : Vec3 :=
  ⟨v.x / norm3 v, v.y / norm3 v, v.z / norm3 v⟩

/-- Modelled from the spec: the math kernel's elementary rotation `R1` about the
x axis, applied to a vector (`MxV33(R1(θ), v)` in the Go code). -/
def R1v (θ : ℝ) (v : Vec3) : Vec3 :=
  ⟨v.x, Real.cos θ * v.y + Real.sin θ * v.z, -Real.sin θ * v.y + Real.cos θ * v.z⟩

/-- Modelled from the spec: the math kernel's `Deg2rad`. -/
def Deg2rad (x : ℝ) : ℝ := x * π / 180

/-- Modelled from the spec: the math kernel's `sign`, with values in {−1,+1}
and `sign 0 = +1` (named `sgn` here to avoid clashing with `Real.sign`). -/
def sgn (x : ℝ) : ℝ := if x < 0 then -1 else 1

/-- Truncation toward zero, as used by Go's `math.Mod`. -/
def rtrunc (z : ℝ) : ℤ := if 0 ≤ z then ⌊z⌋ else ⌈z⌉

/-- Go's `math.Mod x y`: the remainder `x - y·trunc(x/y)`; its magnitude is
less than `|y|` and its sign agrees with that of `x`. -/
def goMod (x y : ℝ) : ℝ := x - y * rtrunc (x / y)

/-- Go's `math.Atan2 y x` (two-argument arctangent), modelled on the reals. -/
def atan2 (y x : ℝ) : ℝ :=
  if 0 < x then Real.arctan (y / x)
  else if x < 0 then
    (if 0 ≤ y then Real.arctan (y / x) + π else Real.arctan (y / x) - π)
  else if 0 < y then π / 2
  else if y < 0 then -(π / 2)
  else 0

lemma goMod_lt_of_pos (x : ℝ) {y : ℝ} (hy : 0 < y) : goMod x y < y := by
  unfold goMod rtrunc
  split
  · have h1 : (⌊x / y⌋ : ℝ) > x / y - 1 := by
      have := Int.sub_one_lt_floor (x / y)
      linarith
    have : y * (⌊x / y⌋ : ℝ) > y * (x / y - 1) := by
      exact (mul_lt_mul_left hy).mpr h1
    have hxy : y * (x / y) = x := by field_simp
    nlinarith
  · have h1 : (⌈x / y⌉ : ℝ) ≥ x / y := Int.le_ceil (x / y)
    have h2 : y * (⌈x / y⌉ : ℝ) ≥ y * (x / y) := by
      exact mul_le_mul_of_nonneg_left h1 hy.le
    have hxy : y * (x / y) = x := by field_simp
    nlinarith

lemma neg_lt_goMod (x : ℝ) {y : ℝ} (hy : 0 < y) : -y < goMod x y := by
  unfold goMod rtrunc
  split
  · have h1 : (⌊x / y⌋ : ℝ) ≤ x / y := Int.floor_le (x / y)
    have h2 : y * (⌊x / y⌋ : ℝ) ≤ y * (x / y) := mul_le_mul_of_nonneg_left h1 hy.le
    have hxy : y * (x / y) = x := by field_simp
    nlinarith
  · have h1 : (⌈x / y⌉ : ℝ) < x / y + 1 := Int.ceil_lt_add_one (x / y)
    have h2 : y * (⌈x / y⌉ : ℝ) < y * (x / y + 1) := (mul_lt_mul_left hy).mpr h1
    have hxy : y * (x / y) = x := by field_simp
    nlinarith

lemma goMod_eq_sub_int_mul (x y : ℝ) : goMod x y = x - (rtrunc (x / y) : ℤ) * y := by
  unfold goMod; ring

/-- `sin` is unchanged by the Go modulo with period `2π`. -/
lemma sin_goMod_two_pi (x : ℝ) : Real.sin (goMod x (2 * π)) = Real.sin x := by
  rw [goMod_eq_sub_int_mul]
  exact Real.sin_periodic.sub_int_mul_eq (rtrunc (x / (2 * π)))

/-- `cos` is unchanged by the Go modulo with period `2π`. -/
lemma cos_goMod_two_pi (x : ℝ) : Real.cos (goMod x (2 * π)) = Real.cos x := by
  rw [goMod_eq_sub_int_mul]
  exact Real.cos_periodic.sub_int_mul_eq (rtrunc (x / (2 * π)))

lemma goMod_zero_left (y : ℝ) : goMod 0 y = 0 := by
  simp [goMod, rtrunc]

/-! ## Orbits and the celestial catalog -/

/-- The Keplerian part of the library's `Orbit` struct: semi-major axis,
eccentricity, inclination, RAAN, argument of periapsis, true anomaly
(all angles in radians). -/
structure Orbit where
  a : ℝ
  e : ℝ
  i : ℝ
  Ω : ℝ
  ω : ℝ
  ν : ℝ

/-- Modelled from the spec: the accessor `GetSemiParameter`, `p = a(1−e²)`. -/
def Orbit.semiParameter (o : Orbit) : ℝ := o.a * (1 - o.e ^ 2)

/-- Modelled from the spec: the accessor `GetHNorm` for an orbit given by its
elements, `h = √(μp)` where `μ` is the central body's gravitational
parameter. -/
def Orbit.hNorm (o : Orbit) (μ : ℝ) : ℝ := Real.sqrt (μ * o.semiParameter)

/-- Modelled from the spec: the accessor `GetRNorm` for an orbit given by its
elements, `r = p/(1+e cos ν)`. -/
def Orbit.rNorm (o : Orbit) : ℝ := o.semiParameter / (1 + o.e * Real.cos o.ν)

/-- Modelled from the spec: the `cos E` part of `GetSinCosE` (eccentric anomaly
via the standard two-argument formula). -/
def Orbit.cosE (o : Orbit) : ℝ := (o.e + Real.cos o.ν) / (1 + o.e * Real.cos o.ν)

/-- Modelled from the spec: the named distance tolerance `ε_d = 1e-6` km. -/
def distanceε : ℝ := 1e-6

/-- Modelled from the spec: the named eccentricity tolerance `ε_e = 1e-5`. -/
def eccentricityε : ℝ := 1e-5

/-- Modelled from the spec: the named angle tolerance `ε_ang = 1e-6` rad. -/
def angleε : ℝ := 1e-6

/-- A celestial-body descriptor, the `CelestialObject` struct of
`celestial.go` (the ephemeris handle `PP` is dropped). -/
structure Planet where
  Name : String
  Radius : ℝ
  a : ℝ
  μ : ℝ
  tilt : ℝ
  incl : ℝ
  SOI : ℝ
  J2 : ℝ
  J3 : ℝ
  J4 : ℝ

/-- One astronomical unit in kilometers (`celestial.go`). -/
def AU : ℝ := 149597870

/-- The Sun descriptor from `celestial.go`. -/
def Sun : Planet := ⟨"Sun", 695700, -1, 1.32712440018e11, 0, 0, -1, 0, 0, 0⟩

/-- The Earth descriptor from `celestial.go`. -/
def Earth : Planet :=
  ⟨"Earth", 6378.1363, 149598023, 3.986004415e5, 23.4, 0.00005, 924645.0,
    1082.6269e-6, -2.5324e-6, -1.6204e-6⟩

/-- The Mars descriptor from `celestial.go`. -/
def Mars : Planet :=
  ⟨"Mars", 3397.2, 227939282.5616, 4.305e4, 25.19, 1.85, 576000, 1964e-6, 36e-6, -18e-6⟩

/-- The Jupiter descriptor from `celestial.go`. -/
def Jupiter : Planet :=
  ⟨"Jupiter", 71492.0, 778298361, 1.268e8, 3.13, 1.30326966, 48.2e6, 0.01475, 0, -0.00058⟩

/-! ## Heliocentric orbit query (`CelestialObject.HelioOrbitAtJD`)

The ephemeris lookup `PP.Position2000(jde)` is an external oracle returning
ecliptic spherical coordinates `(l, b, r)` (angles in radians, `r` in AU);
the embedding takes its output as arguments and models what the function
computes from it. -/

/-- The non-Sun branch of `HelioOrbitAtJD`: Cartesian position from `(l,b,r)`,
vis-viva speed, velocity along `cross(R, (0,0,−1))` scaled to that speed, then
the two `R1` rotations applied to both vectors. Translated line by line from
`celestial.go`. -/
def helioRV (c : Planet) (l b rin : ℝ) : Vec3 × Vec3 :=
  let r := rin * AU
  let v := Real.sqrt (2 * Sun.μ / r - Sun.μ / c.a)
  let R : Vec3 := ⟨r * Real.cos b * Real.cos l, r * Real.cos b * Real.sin l, r * Real.sin b⟩
  let vDir := cross R ⟨0, 0, -1⟩
  let V : Vec3 := ⟨v * vDir.x / norm3 vDir, v * vDir.y / norm3 vDir, v * vDir.z / norm3 vDir⟩
  let R2 := R1v (Deg2rad c.incl) (R1v (Deg2rad (-c.tilt)) R)
  let V2 := R1v (Deg2rad c.incl) (R1v (Deg2rad (-c.tilt)) V)
  (R2, V2)

/-- `HelioOrbitAtJD` including the Sun branch: for the body named Sun the
result is the zero orbit (`NewOrbitFromRV([0,0,0],[0,0,0])`); otherwise the
ephemeris-driven computation `helioRV`. The returned pair is the Cartesian
state stored in the constructed orbit. -/
def helioOrbitAtJD (c : Planet) (l b rin : ℝ) : Vec3 × Vec3 :=
  if c.Name = "Sun" then (⟨0, 0, 0⟩, ⟨0, 0, 0⟩) else helioRV c l b rin

/-- The claim's reading of the same computation, with the velocity direction
taken as `unit(R × ẑ_eclip)` (positive z axis) and written with an explicit
`unit` normalization; used to compare the code against the claim. -/
def helioRVClaim (c : Planet) (l b rin : ℝ) : Vec3 × Vec3 :=
  let r := rin * AU
  let v := Real.sqrt (2 * Sun.μ / r - Sun.μ / c.a)
  let R : Vec3 := ⟨r * Real.cos b * Real.cos l, r * Real.cos b * Real.sin l, r * Real.sin b⟩
  let u := unit3 (cross R ⟨0, 0, 1⟩)
  let V : Vec3 := ⟨v * u.x, v * u.y, v * u.z⟩
  let R2 := R1v (Deg2rad c.incl) (R1v (Deg2rad (-c.tilt)) R)
  let V2 := R1v (Deg2rad c.incl) (R1v (Deg2rad (-c.tilt)) V)
  (R2, V2)

/-- The claim's computation amended only where the counterexample forces it:
the velocity direction is `unit(R × (−ẑ_eclip))`, the negative ecliptic z
axis, everything else as the claim states. -/
def helioRVAmended (c : Planet) (l b rin : ℝ) : Vec3 × Vec3 :=
  let r := rin * AU
  let v := Real.sqrt (2 * Sun.μ / r - Sun.μ / c.a)
  let R : Vec3 := ⟨r * Real.cos b * Real.cos l, r * Real.cos b * Real.sin l, r * Real.sin b⟩
  let u := unit3 (cross R ⟨0, 0, -1⟩)
  let V : Vec3 := ⟨v * u.x, v * u.y, v * u.z⟩
  let R2 := R1v (Deg2rad c.incl) (R1v (Deg2rad (-c.tilt)) R)
  let V2 := R1v (Deg2rad c.incl) (R1v (Deg2rad (-c.tilt)) V)
  (R2, V2)

/-! ## Optimal thrust-direction control laws (`prop.go`, IEPC-2011 Ruggiero) -/

/-- `unitΔvFromAngles` from `prop.go`: the RSW-frame thrust direction built
from the in-plane angle `α` and out-of-plane angle `β`. -/
def unitΔvFromAngles (α β : ℝ) : Vec3 :=
  ⟨Real.sin α * Real.cos β, Real.cos α * Real.cos β, Real.sin β⟩

/-- The optimal-Δa thrust law (`NewOptimalThrust`, case `OptiΔaCL`). -/
def optiΔaThrust (o : Orbit) : Vec3 :=
  unitΔvFromAngles (atan2 (o.e * Real.sin o.ν) (1 + o.e * Real.cos o.ν)) 0

/-- The optimal-Δe thrust law (`NewOptimalThrust`, case `OptiΔeCL`). -/
def optiΔeThrust (o : Orbit) : Vec3 :=
  unitΔvFromAngles (atan2 (Real.sin o.ν) (Real.cos o.ν + o.cosE)) 0

/-- The optimal-Δi thrust law (`NewOptimalThrust`, case `OptiΔiCL`). -/
def optiΔiThrust (o : Orbit) : Vec3 :=
  unitΔvFromAngles 0 (sgn (Real.cos (o.ω + o.ν)) * π / 2)

/-- The optimal-ΔΩ thrust law (`NewOptimalThrust`, case `OptiΔΩCL`). -/
def optiΔΩThrust (o : Orbit) : Vec3 :=
  unitΔvFromAngles 0 (sgn (Real.sin (o.ω + o.ν)) * π / 2)

/-- The optimal-Δω thrust law (`NewOptimalThrust`, case `OptiΔωCL`): an
in-plane Petropoulos solution or an out-of-plane fallback, selected by which
optimal true anomaly is closer. -/
def optiΔωThrust (o : Orbit) : Vec3 :=
  let oe2 := 1 - o.e ^ 2
  let e3 := o.e ^ 3
  let s := Real.sqrt ((1 / 4) * (oe2 / e3) ^ 2 + 1 / 27)
  let νOptiα := Real.arccos
    (Real.rpow (oe2 / (2 * e3) + s) (1 / 3) - Real.rpow (-oe2 / (2 * e3) + s) (1 / 3) - 1 / o.e)
  let νOptiβ := Real.arccos (-o.e * Real.cos o.ω) - o.ω
  if |o.ν - νOptiα| < |o.ν - νOptiβ| then
    let p := o.semiParameter
    unitΔvFromAngles (atan2 (-p * Real.cos o.ν) ((p + o.rNorm) * Real.sin o.ν)) 0
  else
    unitΔvFromAngles 0 (sgn (-Real.sin (o.ω + o.ν)) * Real.cos o.i * π / 2)

/-- `Tangential.Control` from `prop.go`: it delegates to the optimal-Δa law. -/
def tangentialControl (o : Orbit) : Vec3 := optiΔaThrust o

/-- `AntiTangential.Control` from `prop.go`: the optimal-Δa direction with
every component multiplied by −1. -/
def antiTangentialControl (o : Orbit) : Vec3 :=
  let unitV := optiΔaThrust o
  ⟨-unitV.x, -unitV.y, -unitV.z⟩

/-! ## The Ruggiero combination (`OptimalΔOrbit.Control`) -/

/-- The per-element law identifiers used inside `OptimalΔOrbit`
(`OptiΔaCL` … `OptiΔωCL`). -/
inductive Law where
  | optiΔa
  | optiΔe
  | optiΔi
  | optiΔΩ
  | optiΔω
  deriving DecidableEq

/-- The thrust direction each per-element law contributes
(`ctrl.Control(o)` in the combination loop). -/
def lawControl (cl : Law) (o : Orbit) : Vec3 :=
  match cl with
  | .optiΔa => optiΔaThrust o
  | .optiΔe => optiΔeThrust o
  | .optiΔi => optiΔiThrust o
  | .optiΔΩ => optiΔΩThrust o
  | .optiΔω => optiΔωThrust o

/-- The osculating/initial/target element each law steers, as read in the
Ruggiero branch of `OptimalΔOrbit.Control`. -/
def elemOf (o : Orbit) (cl : Law) : ℝ :=
  match cl with
  | .optiΔa => o.a
  | .optiΔe => o.e
  | .optiΔi => o.i
  | .optiΔΩ => o.Ω
  | .optiΔω => o.ω

/-- The tolerance used for each law in the Ruggiero branch. -/
def tolOf (cl : Law) : ℝ :=
  match cl with
  | .optiΔa => distanceε
  | .optiΔe => eccentricityε
  | .optiΔi => angleε
  | .optiΔΩ => angleε
  | .optiΔω => angleε

/-- The Ruggiero `factor` closure: zero when the initial or the osculating
value equals the target within the tolerance (gonum's `EqualWithinAbs`,
`|x−y| ≤ tol`), otherwise `(target − oscul)/|target − init|`. -/
def ruggerioFactor (oscul init target tol : ℝ) : ℝ :=
  if |init - target| ≤ tol ∨ |oscul - target| ≤ tol then 0
  else (target - oscul) / |target - init|

/-- The weight the Ruggiero combination applies to law `cl` at osculating
orbit `o`, given the recorded initial orbit and the target orbit. -/
def ruggerioWeight (oInit oTgt o : Orbit) (cl : Law) : ℝ :=
  ruggerioFactor (elemOf o cl) (elemOf oInit cl) (elemOf oTgt cl) (tolOf cl)

/-- One iteration of the Ruggiero combination loop: if the factor is nonzero,
clear the `cleared` flag and add the scaled law direction to the running
thrust sum. -/
def ruggerioStep (oInit oTgt o : Orbit) (acc : Vec3 × Bool) (cl : Law) : Vec3 × Bool :=
  let fact := ruggerioWeight oInit oTgt o cl
  if fact = 0 then acc
  else
    (⟨acc.1.x + fact * (lawControl cl o).x, acc.1.y + fact * (lawControl cl o).y,
      acc.1.z + fact * (lawControl cl o).z⟩, false)

/-- `OptimalΔOrbit.Control` in the Ruggiero branch, after the initializing
call (`Initd = true`): fold the combination loop over the active laws starting
from zero thrust and `cleared = true`, then return the normalized thrust
direction together with the resulting `cleared` flag. -/
def ruggerioControl (oInit oTgt : Orbit) (ctrls : List Law) (o : Orbit) : Vec3 × Bool :=
  let res := ctrls.foldl (ruggerioStep oInit oTgt o) (⟨0, 0, 0⟩, true)
  (unit3 res.1, res.2)

/-! ## The propagator (`Mission` in `astro.go`) -/

/-- The integrator's seven-component state vector
`s = (a, e, i, Ω, ω, ν, fuel)` handled by `GetState`/`SetState`/`Func`. -/
structure VOPState where
  a : ℝ
  e : ℝ
  i : ℝ
  Ω : ℝ
  ω : ℝ
  ν : ℝ
  fuel : ℝ

/-- The derivative vector returned by `Mission.Func`, component by
component. -/
structure VOPRates where
  aDot : ℝ
  eDot : ℝ
  iDot : ℝ
  ΩDot : ℝ
  ωDot : ℝ
  νDot : ℝ
  fuelDot : ℝ

/-- `Mission.Func`: the Gauss variational equations as the code computes them.
Input angles are first reduced by `math.Mod(·, 2π)`; the temporary orbit's
`p`, `h`, `r` come from the spec's accessor formulas; `(fR, fS, fW)` is the
thrust acceleration `Δv` obtained from `Vehicle.Accelerate` and `usedFuel`
its fuel rate; after the optional J2 secular terms, the Ω, ω and ν components
are reduced by `math.Mod(·, 2π)` in the final loop. -/
def missionFunc (includeJ2 : Bool) (body : Planet) (Δv : Vec3) (usedFuel : ℝ)
    (s : VOPState) : VOPRates :=
  let i2 := goMod s.i (2 * π)
  let Ω2 := goMod s.Ω (2 * π)
  let ω2 := goMod s.ω (2 * π)
  let ν2 := goMod s.ν (2 * π)
  let tmpOrbit : Orbit := ⟨s.a, s.e, i2, Ω2, ω2, ν2⟩
  let p := tmpOrbit.semiParameter
  let h := tmpOrbit.hNorm body.μ
  let r := tmpOrbit.rNorm
  let sini := Real.sin tmpOrbit.i
  let cosi := Real.cos tmpOrbit.i
  let sinν := Real.sin tmpOrbit.ν
  let cosν := Real.cos tmpOrbit.ν
  let sinζ := Real.sin (tmpOrbit.ω + tmpOrbit.ν)
  let cosζ := Real.cos (tmpOrbit.ω + tmpOrbit.ν)
  let fR := Δv.x
  let fS := Δv.y
  let fW := Δv.z
  let d0 := ((2 * tmpOrbit.a * tmpOrbit.a) / h) * (tmpOrbit.e * sinν * fR + (p / r) * fS)
  let d1 := (p * sinν * fR + fS * ((p + r) * cosν + r * tmpOrbit.e)) / h
  let d2 := fW * r * cosζ / h
  let d3 := fW * r * sinζ / (h * sini)
  let d4 := (-p * cosν * fR + (p + r) * sinν * fS) / (h * tmpOrbit.e) - d3 * cosi
  let d5 := h / (r * r) + ((p * cosν * fR) - (p + r) * sinν * fS) / (tmpOrbit.e * h)
  let d6 := -usedFuel
  let d3 := if includeJ2 ∧ 0 < body.J2 then
      d3 + -(3 * Real.sqrt (body.μ / tmpOrbit.a ^ 3) * body.J2 / 2) *
        (body.Radius / p) ^ 2 * cosi
    else d3
  let d4 := if includeJ2 ∧ 0 < body.J2 then
      d4 + -(3 * Real.sqrt (body.μ / tmpOrbit.a ^ 3) * body.J2 / 4) *
        (body.Radius / p) ^ 2 * (5 * cosi ^ 2 - 1)
    else d4
  ⟨d0, d1, d2, goMod d3 (2 * π), goMod d4 (2 * π), goMod d5 (2 * π), d6⟩

/-- The Gauss variational equations exactly as the claim states them, from the
raw state components, with `p = a(1−e²)`, `h = √(μp)`, `r = p/(1+e cos ν)`. -/
def gaussVOP (μ : ℝ) (Δv : Vec3) (usedFuel : ℝ) (s : VOPState) : VOPRates :=
  let p := s.a * (1 - s.e ^ 2)
  let h := Real.sqrt (μ * p)
  let r := p / (1 + s.e * Real.cos s.ν)
  let ΩDot := Δv.z * r * Real.sin (s.ω + s.ν) / (h * Real.sin s.i)
  { aDot := ((2 * s.a ^ 2) / h) * (s.e * Real.sin s.ν * Δv.x + (p / r) * Δv.y)
    eDot := (1 / h) * (p * Real.sin s.ν * Δv.x +
      Δv.y * ((p + r) * Real.cos s.ν + r * s.e))
    iDot := Δv.z * r * Real.cos (s.ω + s.ν) / h
    ΩDot := ΩDot
    ωDot := (-p * Real.cos s.ν * Δv.x + (p + r) * Real.sin s.ν * Δv.y) / (h * s.e) -
      ΩDot * Real.cos s.i
    νDot := h / r ^ 2 + (p * Real.cos s.ν * Δv.x - (p + r) * Real.sin s.ν * Δv.y) / (s.e * h)
    fuelDot := -usedFuel }

/-- `Mission.SetState`: the orbital elements stored back after an integrator
step — `e` as the absolute value of `s₁`, and every angle reduced by Go's
`math.Mod(·, 2π)`. -/
def setStateOrbit (s : VOPState) : Orbit :=
  ⟨s.a, |s.e|, goMod s.i (2 * π), goMod s.Ω (2 * π), goMod s.ω (2 * π), goMod s.ν (2 * π)⟩

/-- The collision-flag update in `Mission.SetState`: flag a collision when not
yet collided and `|R| < R_body`; clear it (revive) when collided and
`|R| > 1.01·R_body`; otherwise keep the flag. The update never aborts the
propagation — it only toggles the flag. -/
def collidedUpdate (collided : Bool) (rNorm radius : ℝ) : Bool :=
  if ¬collided ∧ rNorm < radius then true
  else if collided ∧ radius * 1.01 < rNorm then false
  else collided

/-- The inputs `Mission.Stop` reads: the stop-channel signal, the current,
start and end times (as integer nanosecond counts, mirroring `time.Time`
comparisons), and the `Cleared` flags of the spacecraft's waypoints. -/
structure StopState where
  stopSignal : Bool
  currentDT : ℤ
  startDT : ℤ
  endDT : ℤ
  waypointsCleared : List Bool

/-- `Mission.Stop`: on a stop signal, stop at once; otherwise advance the
current time by one step, then — if `EndDT` is strictly before `StartDT`
(open-ended mode) — stop exactly when every waypoint is cleared, and in the
timed mode stop exactly when the advanced time is past `EndDT`.  Returns the
stop decision and the advanced current time. -/
def missionStop (st : StopState) (step : ℤ) : Bool × ℤ :=
  if st.stopSignal then (true, st.currentDT)
  else
    let now := st.currentDT + step
    if st.endDT < st.startDT then
      (if st.waypointsCleared.all (fun c => c) then true else false, now)
    else if st.endDT < now then (true, now)
    else (false, now)

/-- The stop condition exactly as the claim states it: a stop signal, or
`now > end` with `end > start`, or `end ≤ start` (open-ended) with every
waypoint cleared; `now` is the time after the step's advance. -/
def claimStopCond (st : StopState) (step : ℤ) : Prop :=
  st.stopSignal = true ∨
    (st.startDT < st.endDT ∧ st.endDT < st.currentDT + step) ∨
    (st.endDT ≤ st.startDT ∧ ∀ c ∈ st.waypointsCleared, c = true)

instance (st : StopState) (step : ℤ) : Decidable (claimStopCond st step) := by
  unfold claimStopCond
  exact inferInstance

/-! ## The NaN guard in `Mission.Func`

Floating-point special values are modelled by classifying each derivative
component as a finite real, an infinity, or NaN; the guard's predicate
`math.IsNaN` is exact on this classification. -/

/-- Classification of a Go `float64` derivative component. -/
inductive GoFloat where
  | finite : ℝ → GoFloat
  | posInf
  | negInf
  | nan
  deriving DecidableEq

/-- Go's `math.IsNaN` on the classification. -/
def GoFloat.isNaN : GoFloat → Bool
  | .nan => true
  | _ => false

/-- Whether a component is a finite value (neither NaN nor an infinity). -/
def GoFloat.isFinite : GoFloat → Bool
  | .finite _ => true
  | _ => false

/-- The diagnostic carried by the `panic` raised on a NaN derivative: the
current simulation time, the thrust `Δv`, the tentative and current orbits,
and the current and tentative position and velocity vectors. -/
structure Diagnostic where
  dt : ℤ
  Δv : Vec3
  tmpOrbit : Orbit
  curOrbit : Orbit
  Rcur : Vec3
  Vcur : Vec3
  Rtmp : Vec3
  Vtmp : Vec3

/-- The final loop of `Mission.Func` as far as aborting goes: panic with the
diagnostic as soon as some component of the derivative vector is NaN
(`math.IsNaN`), otherwise return normally (`none`). -/
def funcNaNCheck (fDot : List GoFloat) (dt : ℤ) (Δv : Vec3) (tmpO curO : Orbit)
    (Rcur Vcur Rtmp Vtmp : Vec3) : Option Diagnostic :=
  if fDot.any GoFloat.isNaN then some ⟨dt, Δv, tmpO, curO, Rcur, Vcur, Rtmp, Vtmp⟩
  else none

/-- A derivative vector whose first component is `+Inf` and whose remaining
six components are finite zeros: non-finite but NaN-free. -/
def fDotInfExample : List GoFloat :=
  [GoFloat.posInf, .finite 0, .finite 0, .finite 0, .finite 0, .finite 0, .finite 0]

/-! ## Helper lemmas -/

lemma norm3_unitΔvFromAngles (α β : ℝ) : norm3 (unitΔvFromAngles α β) = 1 := by
  unfold norm3 unitΔvFromAngles
  have h1 := Real.sin_sq_add_cos_sq α
  have h2 := Real.sin_sq_add_cos_sq β
  have h : (Real.sin α * Real.cos β) ^ 2 + (Real.cos α * Real.cos β) ^ 2 +
      Real.sin β ^ 2 = 1 := by nlinarith
  rw [h, Real.sqrt_one]

lemma isNaN_eq_true_iff (g : GoFloat) : g.isNaN = true ↔ g = GoFloat.nan := by
  cases g <;> simp [GoFloat.isNaN]

lemma ruggerio_foldl_cleared (oInit oTgt o : Orbit) :
    ∀ (ctrls : List Law) (acc : Vec3 × Bool),
      (ctrls.foldl (ruggerioStep oInit oTgt o) acc).2 = true ↔
        (acc.2 = true ∧ ∀ cl ∈ ctrls, ruggerioWeight oInit oTgt o cl = 0) := by
  intro ctrls
  induction ctrls with
  | nil => intro acc; simp
  | cons c cs ih =>
    intro acc
    rw [List.foldl_cons, ih]
    by_cases hw : ruggerioWeight oInit oTgt o c = 0
    · simp [ruggerioStep, hw]
    · simp [ruggerioStep, hw]

/-! ## The claims -/

/-- Claim C9: every per-element optimal thrust law returns the RSW-frame
vector `unit_dv(α,β) = (sinα cosβ, cosα cosβ, sinβ)`, which has Euclidean
norm 1 for every `α` and `β`; and the Δa law uses the angles
`α = atan2(e sinν, 1 + e cosν)` and `β = 0`. -/
theorem C9_unit_thrust_directions :
    ∀ (α β : ℝ) (o : Orbit),
      unitΔvFromAngles α β =
        ⟨Real.sin α * Real.cos β, Real.cos α * Real.cos β, Real.sin β⟩ ∧
      norm3 (unitΔvFromAngles α β) = 1 ∧
      optiΔaThrust o =
        unitΔvFromAngles (atan2 (o.e * Real.sin o.ν) (1 + o.e * Real.cos o.ν)) 0 ∧
      norm3 (optiΔaThrust o) = 1 ∧ norm3 (optiΔeThrust o) = 1 ∧
      norm3 (optiΔiThrust o) = 1 ∧ norm3 (optiΔΩThrust o) = 1 ∧
      norm3 (optiΔωThrust o) = 1 := by
  intro α β o
  refine ⟨rfl, norm3_unitΔvFromAngles α β, rfl, norm3_unitΔvFromAngles _ _,
    norm3_unitΔvFromAngles _ _, norm3_unitΔvFromAngles _ _, norm3_unitΔvFromAngles _ _, ?_⟩
  have key : ∀ (c : Prop) (inst : Decidable c) (α₁ β₁ α₂ β₂ : ℝ),
      norm3 (if c then unitΔvFromAngles α₁ β₁ else unitΔvFromAngles α₂ β₂) = 1 := by
    intro c inst α₁ β₁ α₂ β₂
    split <;> exact norm3_unitΔvFromAngles _ _
  exact key _ _ _ _ _ _

/-- Claim C10: for every orbit, `AntiTangential.Control` is the component-wise
negation of `Tangential.Control`; both delegate to the optimal-Δa thrust
direction and both are unit vectors. -/
theorem C10_antitangential_is_neg_tangential :
    ∀ o : Orbit,
      antiTangentialControl o =
        ⟨-(tangentialControl o).x, -(tangentialControl o).y, -(tangentialControl o).z⟩ ∧
      tangentialControl o = optiΔaThrust o ∧
      norm3 (tangentialControl o) = 1 ∧ norm3 (antiTangentialControl o) = 1 := by
  intro o
  refine ⟨rfl, rfl, norm3_unitΔvFromAngles _ _, ?_⟩
  have h : norm3 (antiTangentialControl o) = norm3 (tangentialControl o) := by
    unfold antiTangentialControl tangentialControl norm3
    ring_nf
  rw [h]
  exact norm3_unitΔvFromAngles _ _

/-- Claim C8: after a step, a collision is flagged exactly when the flag was
not already set and `|R| < R_body`; a set flag is cleared exactly when
`|R| > 1.01·R_body`; in every other case the flag is unchanged (in particular,
while it is set no further collision is flagged).  The update is a total
function — it never aborts the propagation. -/
theorem C8_collision_flag_update :
    ∀ (collided : Bool) (rNorm radius : ℝ),
      collidedUpdate collided rNorm radius =
        if collided then (if radius * 1.01 < rNorm then false else true)
        else (if rNorm < radius then true else false) := by
  intro c r R
  cases c <;> by_cases h1 : r < R <;> by_cases h2 : R * 1.01 < r <;>
    simp [collidedUpdate, h1, h2]

/-- Claim C7, counterexample: a derivative vector whose first component is
`+Inf` is not all-finite, yet the propagator's guard does not abort on it —
`math.IsNaN` does not catch infinities. -/
theorem C7_counterexample :
    funcNaNCheck fDotInfExample 0 ⟨0, 0, 0⟩ ⟨0, 0, 0, 0, 0, 0⟩ ⟨0, 0, 0, 0, 0, 0⟩
      ⟨0, 0, 0⟩ ⟨0, 0, 0⟩ ⟨0, 0, 0⟩ ⟨0, 0, 0⟩ = none ∧
    fDotInfExample.all GoFloat.isFinite = false :=
  ⟨rfl, rfl⟩

/-- Claim C7, amended: the run aborts exactly when some component of the
derivative vector is NaN (an infinity alone does not abort), and when it
aborts the diagnostic carries the current simulation time, the thrust `Δv`,
the current and tentative orbits, and the position and velocity vectors. -/
theorem C7_nan_abort :
    ∀ (fDot : List GoFloat) (dt : ℤ) (Δv : Vec3) (tmpO curO : Orbit)
      (Rcur Vcur Rtmp Vtmp : Vec3),
      ((funcNaNCheck fDot dt Δv tmpO curO Rcur Vcur Rtmp Vtmp).isSome = true ↔
        GoFloat.nan ∈ fDot) ∧
      (funcNaNCheck fDot dt Δv tmpO curO Rcur Vcur Rtmp Vtmp = none ∨
        funcNaNCheck fDot dt Δv tmpO curO Rcur Vcur Rtmp Vtmp =
          some ⟨dt, Δv, tmpO, curO, Rcur, Vcur, Rtmp, Vtmp⟩) := by
  intro fDot dt Δv tmpO curO Rcur Vcur Rtmp Vtmp
  constructor
  · unfold funcNaNCheck
    split
    · rename_i h
      simp only [Option.isSome_some, true_iff]
      rw [List.any_eq_true] at h
      obtain ⟨g, hg, hnan⟩ := h
      rw [isNaN_eq_true_iff] at hnan
      exact hnan ▸ hg
    · rename_i h
      simp only [Option.isSome_none, Bool.false_eq_true, false_iff]
      intro hmem
      exact h (List.any_eq_true.mpr ⟨GoFloat.nan, hmem, rfl⟩)
  · unfold funcNaNCheck
    split
    · exact Or.inr rfl
    · exact Or.inl rfl

/-- Claim C6, counterexample: with `end = start` (here both 0), an uncleared
waypoint and no stop signal, the code stops as soon as `now > end` — but the
claim places `end = start` in open-ended mode and says the step should
proceed.  `end ≤ start` is the wrong boundary: the code's open-ended mode is
`end < start` strictly. -/
theorem C6_counterexample :
    (missionStop ⟨false, 0, 0, 0, [false]⟩ 10).1 = true ∧
      ¬ claimStopCond ⟨false, 0, 0, 0, [false]⟩ 10 := by
  constructor
  · rfl
  · decide

/-- Claim C6, amended: before each step the propagator stops exactly when a
stop signal has been received, or `end < start` (open-ended mode, strictly)
and every waypoint is cleared, or `start ≤ end` and the stepped time is past
`end`. -/
theorem C6_stop_condition :
    ∀ (st : StopState) (step : ℤ),
      (missionStop st step).1 = true ↔
        st.stopSignal = true ∨
          (st.endDT < st.startDT ∧ ∀ c ∈ st.waypointsCleared, c = true) ∨
          (st.startDT ≤ st.endDT ∧ st.endDT < st.currentDT + step) := by
  intro st step
  by_cases hs : st.stopSignal
  · simp [missionStop, hs]
  · by_cases he : st.endDT < st.startDT
    · have hns : ¬ st.startDT ≤ st.endDT := not_le.mpr he
      by_cases hall : st.waypointsCleared.all (fun c => c)
      · simp only [List.all_eq_true] at hall
        simp [missionStop, hs, he, hns, hall]
      · simp only [List.all_eq_true] at hall
        simp [missionStop, hs, he, hns, hall, List.all_eq_true]
    · have hse : st.startDT ≤ st.endDT := not_lt.mp he
      by_cases hn : st.endDT < st.currentDT + step
      · simp [missionStop, hs, he, hse, hn]
      · simp [missionStop, hs, he, hse, hn]

/-- Claim C6, witness: a concrete timed-mode stop obtained from the amended
stop-condition theorem. -/
theorem C6_stop_condition_witness :
    (missionStop ⟨false, 5, 0, 4, []⟩ 10).1 = true :=
  (C6_stop_condition ⟨false, 5, 0, 4, []⟩ 10).mpr
    (Or.inr (Or.inr ⟨by decide, by decide⟩))

/-- Claim C5, counterexample: the catalog's Sun descriptor stores the
sphere-of-influence radius as −1, a negative sentinel — not `∞` (it is not
even an upper bound of any radius). -/
theorem C5_counterexample : Sun.SOI = -1 ∧ Sun.SOI < 0 := by
  refine ⟨rfl, ?_⟩
  norm_num [Sun]

/-- Claim C5, amended: the Sun descriptor's SOI field is the sentinel −1
(rather than ∞), and for every ephemeris input the Sun's heliocentric-orbit
query returns the zero orbit: zero position and zero velocity. -/
theorem C5_sun_descriptor :
    Sun.SOI = -1 ∧
      ∀ l b rin : ℝ, helioOrbitAtJD Sun l b rin = (⟨0, 0, 0⟩, ⟨0, 0, 0⟩) := by
  refine ⟨rfl, ?_⟩
  intro l b rin
  rfl

/-- Claim C3, counterexample: `SetState` stores angles through Go's
`math.Mod`, whose result keeps the sign of the dividend.  For the integrator
state with `s₅ = −π/2` the stored true anomaly is `−π/2`, which is negative
and hence not in `[0, 2π)`. -/
theorem C3_counterexample :
    ¬ (0 ≤ (setStateOrbit ⟨7000, 1 / 100, 1, 1, 1, -(π / 2), 0⟩).ν) := by
  have hπ := Real.pi_pos
  have hdiv : (-(π / 2)) / (2 * π) = -(1 / 4) := by
    field_simp
    ring
  have hceil : rtrunc (-(1 / 4) : ℝ) = 0 := by
    unfold rtrunc
    rw [if_neg (by norm_num)]
    rw [Int.ceil_eq_zero_iff]
    constructor <;> norm_num
  have hν : (setStateOrbit ⟨7000, 1 / 100, 1, 1, 1, -(π / 2), 0⟩).ν = -(π / 2) := by
    show goMod (-(π / 2)) (2 * π) = -(π / 2)
    unfold goMod
    rw [hdiv, hceil]
    simp
  rw [hν]
  push_neg
  linarith

/-- Claim C3, amended: after every `SetState` the stored angles `i, Ω, ω, ν`
lie in the open interval `(−2π, 2π)` — Go's `math.Mod` keeps the dividend's
sign, so `[0, 2π)` holds only for non-negative integrator components — and
the stored eccentricity equals `|s₁|` and is therefore non-negative. -/
theorem C3_setstate_ranges :
    ∀ s : VOPState,
      (-(2 * π) < (setStateOrbit s).i ∧ (setStateOrbit s).i < 2 * π) ∧
      (-(2 * π) < (setStateOrbit s).Ω ∧ (setStateOrbit s).Ω < 2 * π) ∧
      (-(2 * π) < (setStateOrbit s).ω ∧ (setStateOrbit s).ω < 2 * π) ∧
      (-(2 * π) < (setStateOrbit s).ν ∧ (setStateOrbit s).ν < 2 * π) ∧
      (setStateOrbit s).e = |s.e| ∧ 0 ≤ (setStateOrbit s).e := by
  intro s
  have h2π : (0 : ℝ) < 2 * π := by positivity
  exact ⟨⟨neg_lt_goMod _ h2π, goMod_lt_of_pos _ h2π⟩,
    ⟨neg_lt_goMod _ h2π, goMod_lt_of_pos _ h2π⟩,
    ⟨neg_lt_goMod _ h2π, goMod_lt_of_pos _ h2π⟩,
    ⟨neg_lt_goMod _ h2π, goMod_lt_of_pos _ h2π⟩,
    rfl, abs_nonneg s.e⟩

/-- Claim C2: in the Ruggiero combination, after the initializing call, the
weight applied to each active per-element law is
`(target − osculating)/|target − initial|`, except that it is zero when the
initial or the osculating value equals the target within that element's
tolerance; and the law reports cleared after the call exactly when every
active law's weight was zero in that call. -/
theorem C2_ruggerio_weights_and_cleared :
    ∀ (oInit oTgt o : Orbit) (ctrls : List Law),
      (∀ cl ∈ ctrls,
        ruggerioWeight oInit oTgt o cl =
          if |elemOf oInit cl - elemOf oTgt cl| ≤ tolOf cl ∨
              |elemOf o cl - elemOf oTgt cl| ≤ tolOf cl
          then 0
          else (elemOf oTgt cl - elemOf o cl) / |elemOf oTgt cl - elemOf oInit cl|) ∧
      ((ruggerioControl oInit oTgt ctrls o).2 = true ↔
        ∀ cl ∈ ctrls, ruggerioWeight oInit oTgt o cl = 0) := by
  intro oInit oTgt o ctrls
  constructor
  · intro cl _
    rfl
  · show (ctrls.foldl (ruggerioStep oInit oTgt o) (⟨0, 0, 0⟩, true)).2 = true ↔ _
    rw [ruggerio_foldl_cleared]
    simp

/-- Claim C2, witness: with initial, target and osculating orbits all equal,
the single active Δa law's weight is zero and the law reports cleared. -/
theorem C2_ruggerio_weights_and_cleared_witness :
    (ruggerioControl ⟨42164, 0, 1, 1, 1, 0⟩ ⟨42164, 0, 1, 1, 1, 0⟩ [Law.optiΔa]
      ⟨42164, 0, 1, 1, 1, 0⟩).2 = true :=
  (C2_ruggerio_weights_and_cleared ⟨42164, 0, 1, 1, 1, 0⟩ ⟨42164, 0, 1, 1, 1, 0⟩
      ⟨42164, 0, 1, 1, 1, 0⟩ [Law.optiΔa]).2.mpr (by
    intro cl hcl
    simp only [List.mem_singleton] at hcl
    subst hcl
    unfold ruggerioWeight ruggerioFactor elemOf tolOf distanceε
    rw [if_pos]
    left
    norm_num)

/-- Claim C4, amended: for every non-Sun body and every ephemeris output, the
heliocentric orbit query computes the vis-viva speed, takes the velocity
direction `unit(R × (−ẑ_eclip))` — the *negative* ecliptic z axis, not `+ẑ`
as the claim states — and rotates both vectors by `R₁(−tilt)` then
`R₁(+inclination)`. -/
theorem C4_helio_orbit_amended :
    ∀ (c : Planet) (l b rin : ℝ), helioRV c l b rin = helioRVAmended c l b rin := by
  intro c l b rin
  unfold helioRV helioRVAmended unit3
  simp only [mul_div_assoc]

/-- Claim C4, counterexample: for Earth at ephemeris output `(l,b,r) =
(0,0,1 AU)`, the velocity computed by the code differs from the claim's
`unit(R × ẑ_eclip)` construction — the code uses `R × (−ẑ)`, which points the
opposite way, so the resulting velocity vectors differ (shown on their y
components). -/
theorem C4_counterexample :
    (helioRV Earth 0 0 1).2.y ≠ (helioRVClaim Earth 0 0 1).2.y := by
  have hAUpos : (0:ℝ) < AU := by norm_num [AU]
  simp only [helioRV, helioRVClaim, cross, R1v, unit3, norm3]
  norm_num
  rw [Real.sqrt_sq hAUpos.le, mul_div_assoc, div_self hAUpos.ne', mul_one, neg_div,
    div_self hAUpos.ne']
  intro h
  have hv : 0 < Real.sqrt (2 * Sun.μ / AU - Sun.μ / Earth.a) :=
    Real.sqrt_pos.mpr (by norm_num [Sun, Earth, AU])
  have hπ := Real.pi_pos
  have hγ : 0 < Real.cos (Deg2rad (-Earth.tilt) + Deg2rad Earth.incl) := by
    apply Real.cos_pos_of_mem_Ioo
    constructor
    · unfold Deg2rad
      simp only [Earth]
      nlinarith
    · unfold Deg2rad
      simp only [Earth]
      nlinarith
  have hca := Real.cos_add (Deg2rad (-Earth.tilt)) (Deg2rad Earth.incl)
  nlinarith [h, hγ, hv, hca]

lemma sin_goMod_add (x y : ℝ) :
    Real.sin (goMod x (2 * π) + goMod y (2 * π)) = Real.sin (x + y) := by
  rw [goMod_eq_sub_int_mul, goMod_eq_sub_int_mul]
  rw [show x - (rtrunc (x / (2 * π)) : ℤ) * (2 * π) + (y - (rtrunc (y / (2 * π)) : ℤ) * (2 * π)) =
      x + y - ((rtrunc (x / (2 * π)) + rtrunc (y / (2 * π)) : ℤ) : ℝ) * (2 * π) by
    push_cast
    ring]
  exact Real.sin_periodic.sub_int_mul_eq _

lemma cos_goMod_add (x y : ℝ) :
    Real.cos (goMod x (2 * π) + goMod y (2 * π)) = Real.cos (x + y) := by
  rw [goMod_eq_sub_int_mul, goMod_eq_sub_int_mul]
  rw [show x - (rtrunc (x / (2 * π)) : ℤ) * (2 * π) + (y - (rtrunc (y / (2 * π)) : ℤ) * (2 * π)) =
      x + y - ((rtrunc (x / (2 * π)) + rtrunc (y / (2 * π)) : ℤ) : ℝ) * (2 * π) by
    push_cast
    ring]
  exact Real.cos_periodic.sub_int_mul_eq _

/-- Claim C1, amended: with the J2 perturbation disabled, the propagator's
derivative function returns exactly the Gauss variational equations of the
claim for ȧ, ė, i̇ and ṁ, while the Ω̇, ω̇ and ν̇ components are those same
Gauss expressions additionally reduced by Go's `math.Mod(·, 2π)` (the ω̇
equation uses the unreduced Ω̇). -/
theorem C1_gauss_vop :
    ∀ (body : Planet) (Δv : Vec3) (usedFuel : ℝ) (s : VOPState),
      missionFunc false body Δv usedFuel s =
        { gaussVOP body.μ Δv usedFuel s with
          ΩDot := goMod ((gaussVOP body.μ Δv usedFuel s).ΩDot) (2 * π)
          ωDot := goMod ((gaussVOP body.μ Δv usedFuel s).ωDot) (2 * π)
          νDot := goMod ((gaussVOP body.μ Δv usedFuel s).νDot) (2 * π) } := by
  intro body Δv usedFuel s
  unfold missionFunc gaussVOP
  simp only [Orbit.semiParameter, Orbit.hNorm, Orbit.rNorm, cos_goMod_two_pi,
    sin_goMod_two_pi, sin_goMod_add, cos_goMod_add, Bool.false_eq_true, false_and,
    if_false]
  congr 1
  all_goals ring

/-- Claim C1, counterexample: at the state `(a,e,i,Ω,ω,ν,m) = (1, 1/2, 1, 0,
0, 0, 0)` around Earth with zero thrust, the Gauss equations give
`ν̇ = h/r² ≈ 2187 rad/s`, but the derivative function returns that value
reduced by `math.Mod(·, 2π)` — so it is not exactly the stated Gauss
expression. -/
theorem C1_counterexample :
    (missionFunc false Earth ⟨0, 0, 0⟩ 0 ⟨1, 1 / 2, 1, 0, 0, 0, 0⟩).νDot ≠
      (gaussVOP Earth.μ ⟨0, 0, 0⟩ 0 ⟨1, 1 / 2, 1, 0, 0, 0, 0⟩).νDot := by
  simp only [missionFunc, gaussVOP, Orbit.semiParameter, Orbit.hNorm, Orbit.rNorm,
    goMod_zero_left]
  norm_num
  intro h
  have h2pi : (0:ℝ) < 2 * π := by positivity
  have hlt := goMod_lt_of_pos (Real.sqrt Earth.μ * (Real.sqrt 3 / Real.sqrt 4) / (1 / 4)) h2pi
  rw [h] at hlt
  have h4 : Real.sqrt 4 = 2 := by
    rw [show (4:ℝ) = 2 ^ 2 by norm_num]
    exact Real.sqrt_sq (by norm_num)
  have h3 : (1:ℝ) ≤ Real.sqrt 3 := by
    rw [show (1:ℝ) = Real.sqrt 1 by simp]
    exact Real.sqrt_le_sqrt (by norm_num)
  have h500 : (500:ℝ) ≤ Real.sqrt Earth.μ := by
    rw [show (500:ℝ) = Real.sqrt 250000 by
      rw [show (250000:ℝ) = 500 ^ 2 by norm_num]
      rw [Real.sqrt_sq (by norm_num)]]
    exact Real.sqrt_le_sqrt (by norm_num [Earth])
  have hpi := Real.pi_lt_d2
  rw [h4] at hlt
  nlinarith [hlt, h3, h500, hpi]
